import Mathlib

/-!
Verification of the VibeCapsule provider-agnostic streaming gateway.

This file gives a shallow embedding, in Lean 4, of the streaming-decoder,
prompt-builder, credential-validation, model-selection and debounce logic of
the VibeCapsule browser extension (sources: src/services/chrome_ai.ts
(OpenAI service), src/services/anthropic.ts, src/services/gemini.ts,
src/services/llm.ts, and the popup component holding pickBestModel,
fetchModels and the debounced refresh effects), and proves the testable
properties stated in the specification against that embedding.

Text is modelled as `List Char` (the TypeScript code works on JavaScript
strings; `TextDecoder(..., \x7bstream: true\x7d)` reassembles UTF-8 code
points split across chunk boundaries, so a partition of the byte stream is
faithfully modelled as a partition of the character stream).  Network
effects are modelled by passing the observable response data (HTTP ok flag,
status, body) explicitly.
-/

set_option maxRecDepth 10000

/-- Whitespace recognised by JavaScript `String.prototype.trim` (ASCII part;
the payloads at issue contain no exotic Unicode spaces). -/
def isJsWs (c : Char) : Bool :=
  c = ' ' || c = '\t' || c = '\n' || c = '\r' || c = '\x0b' || c = '\x0c'

/-- JavaScript `s.trim()` on a character list. -/
def jsTrim (s : List Char) : List Char :=
  ((s.dropWhile isJsWs).reverse.dropWhile isJsWs).reverse

/-- JavaScript `s.startsWith(pat)`. -/
def startsWithL : List Char → List Char → Bool
  | [], _ => true
  | _ :: _, [] => false
  | p :: ps, c :: cs => p = c && startsWithL ps cs

/-- JavaScript `s.includes(pat)` (substring containment). -/
def containsSub (pat : List Char) : List Char → Bool
  | [] => startsWithL pat []
  | c :: cs => startsWithL pat (c :: cs) || containsSub pat cs

/-- Split a character list at each newline character, the way repeated
`buffer.split('\n')` classifies it; the result is always non-empty and the
last element is the text after the final newline (possibly empty). -/
def splitNl : List Char → List (List Char)
  | [] => [[]]
  | c :: rest =>
    if c = '\n' then [] :: splitNl rest
    else
      match splitNl rest with
      | [] => [[c]]
      | h :: t => (c :: h) :: t

/-- JSON values as produced by `JSON.parse`; numbers are kept as their raw
source text (no claim in scope inspects a numeric value). -/
inductive Json where
  | null : Json
  | bool : Bool → Json
  | num : List Char → Json
  | str : List Char → Json
  | arr : List Json → Json
  | obj : List (List Char × Json) → Json

/-- JSON whitespace (per the JSON grammar used by `JSON.parse`). -/
def isJsonWs (c : Char) : Bool :=
  c = ' ' || c = '\t' || c = '\n' || c = '\r'

def skipWs (cs : List Char) : List Char := cs.dropWhile isJsonWs

def isDigitC (c : Char) : Bool := '0' ≤ c && c ≤ '9'

/-- Value of one hexadecimal digit (for `\u` escapes), working on the raw
code point: 48-57 are the digits, 97-102 lower-case a-f, 65-70 upper-case. -/
def hexVal (c : Char) : Option Nat :=
  let n := c.toNat
  if 48 ≤ n ∧ n ≤ 57 then some (n - 48)
  else if 97 ≤ n ∧ n ≤ 102 then some (n - 87)
  else if 65 ≤ n ∧ n ≤ 70 then some (n - 55)
  else none

/-- Body of a JSON string literal, after the opening quote: returns the
decoded characters and the remaining input after the closing quote. -/
def parseStringBody : Nat → List Char → Option (List Char × List Char)
  | 0, _ => none
  | _ + 1, [] => none
  | fuel + 1, c :: rest =>
    if c = '"' then some ([], rest)
    else if c = '\\' then
      match rest with
      | [] => none
      | e :: rest2 =>
        let dec : Option Char :=
          if e = '"' then some '"'
          else if e = '\\' then some '\\'
          else if e = '/' then some '/'
          else if e = 'b' then some '\x08'
          else if e = 'f' then some '\x0c'
          else if e = 'n' then some '\n'
          else if e = 'r' then some '\r'
          else if e = 't' then some '\t'
          else none
        match dec with
        | some ch =>
          match parseStringBody fuel rest2 with
          | some (s, r) => some (ch :: s, r)
          | none => none
        | none =>
          if e = 'u' then
            match rest2 with
            | h1 :: h2 :: h3 :: h4 :: rest3 =>
              match hexVal h1, hexVal h2, hexVal h3, hexVal h4 with
              | some a, some b, some cc, some d =>
                let code := ((a * 16 + b) * 16 + cc) * 16 + d
                match parseStringBody fuel rest3 with
                | some (s, r) => some (Char.ofNat code :: s, r)
                | none => none
              | _, _, _, _ => none
            | _ => none
          else none
    else if c.toNat < 32 then none
    else
      match parseStringBody fuel rest with
      | some (s, r) => some (c :: s, r)
      | none => none

/-- JSON number literal: `-? (0 | [1-9][0-9]*) (. [0-9]+)? ([eE][+-]?[0-9]+)?`,
kept as raw text. -/
def parseNumber (cs : List Char) : Option (Json × List Char) :=
  let (sign, cs1) :=
    match cs with
    | '-' :: r => ([('-' : Char)], r)
    | _ => ([], cs)
  let ip := cs1.takeWhile isDigitC
  let r1 := cs1.dropWhile isDigitC
  if ip = [] then none
  else if 1 < ip.length && ip.head? = some '0' then none
  else
    let (fp, r2) :=
      match r1 with
      | '.' :: r =>
        let ds := r.takeWhile isDigitC
        (if ds = [] then none else some ('.' :: ds), r.dropWhile isDigitC)
      | _ => (some [], r1)
    match fp with
    | none => none
    | some fpart =>
      let (ep, r3) :=
        match r2 with
        | 'e' :: r =>
          let (es, r') :=
            match r with
            | '+' :: rr => ([('+' : Char)], rr)
            | '-' :: rr => ([('-' : Char)], rr)
            | _ => ([], r)
          let ds := r'.takeWhile isDigitC
          (if ds = [] then none else some ('e' :: (es ++ ds)), r'.dropWhile isDigitC)
        | 'E' :: r =>
          let (es, r') :=
            match r with
            | '+' :: rr => ([('+' : Char)], rr)
            | '-' :: rr => ([('-' : Char)], rr)
            | _ => ([], r)
          let ds := r'.takeWhile isDigitC
          (if ds = [] then none else some ('E' :: (es ++ ds)), r'.dropWhile isDigitC)
        | _ => (some [], r2)
      match ep with
      | none => none
      | some epart => some (Json.num (sign ++ ip ++ fpart ++ epart), r3)

mutual

/-- Recursive-descent parser for a JSON value, fuelled; mirrors `JSON.parse`. -/
def parseValue : Nat → List Char → Option (Json × List Char)
  | 0, _ => none
  | fuel + 1, cs =>
    match skipWs cs with
    | [] => none
    | c :: rest =>
      if c = '"' then
        match parseStringBody fuel rest with
        | some (s, r) => some (Json.str s, r)
        | none => none
      else if c = '{' then
        match skipWs rest with
        | '}' :: r => some (Json.obj [], r)
        | other => parseMembers fuel other []
      else if c = '[' then
        match skipWs rest with
        | ']' :: r => some (Json.arr [], r)
        | other => parseElems fuel other []
      else if c = 't' then
        if startsWithL ("rue".data) rest then some (Json.bool true, rest.drop 3) else none
      else if c = 'f' then
        if startsWithL ("alse".data) rest then some (Json.bool false, rest.drop 4) else none
      else if c = 'n' then
        if startsWithL ("ull".data) rest then some (Json.null, rest.drop 3) else none
      else if c = '-' || isDigitC c then parseNumber (c :: rest)
      else none

/-- Members of a JSON object after at least one pair is known to follow. -/
def parseMembers : Nat → List Char → List (List Char × Json) → Option (Json × List Char)
  | 0, _, _ => none
  | fuel + 1, cs, acc =>
    match skipWs cs with
    | '"' :: rest =>
      match parseStringBody fuel rest with
      | none => none
      | some (key, r1) =>
        match skipWs r1 with
        | ':' :: r2 =>
          match parseValue fuel r2 with
          | none => none
          | some (v, r3) =>
            match skipWs r3 with
            | ',' :: r4 => parseMembers fuel r4 (acc ++ [(key, v)])
            | '}' :: r4 => some (Json.obj (acc ++ [(key, v)]), r4)
            | _ => none
        | _ => none
    | _ => none

/-- Elements of a JSON array after at least one element is known to follow. -/
def parseElems : Nat → List Char → List Json → Option (Json × List Char)
  | 0, _, _ => none
  | fuel + 1, cs, acc =>
    match parseValue fuel cs with
    | none => none
    | some (v, r1) =>
      match skipWs r1 with
      | ',' :: r2 => parseElems fuel r2 (acc ++ [v])
      | ']' :: r2 => some (Json.arr (acc ++ [v]), r2)
      | _ => none

end

/-- JavaScript `JSON.parse`: a single JSON value with only whitespace around it. -/
def jsonParse (cs : List Char) : Option Json :=
  match parseValue (cs.length + 2) cs with
  | some (v, rest) => if skipWs rest = [] then some v else none
  | none => none

/-- Property access `o[name]` on a parsed JSON value: `JSON.parse` keeps the
last binding of a duplicated key. -/
def objGet (name : List Char) : Json → Option Json
  | Json.obj fields =>
    match fields.reverse.find? (fun kv => kv.1 = name) with
    | some kv => some kv.2
    | none => none
  | _ => none

/-- Index access `a[i]` on a parsed JSON value. -/
def arrGet (i : Nat) : Json → Option Json
  | Json.arr xs => xs.get? i
  | _ => none

/-- Delta extraction of the OpenAI stream loop:
`json.choices[0]?.delta?.content` followed by `if (content) yield content`.
The wire format carries the delta as a string; the empty string is falsy, so
no fragment is emitted for it. -/
def openAIExtract (j : Json) : Option (List Char) :=
  match (((objGet ("choices".data) j).bind (arrGet 0)).bind
      (objGet ("delta".data))).bind (objGet ("content".data)) with
  | some (Json.str s) => if s = [] then none else some s
  | _ => none

/-- Delta extraction of the Anthropic stream loop: a fragment is yielded only
when `event.type === 'content_block_delta'` and `event.delta?.type ===
'text_delta'`; the fragment is `event.delta.text` (a string on the wire). -/
def anthropicExtract (j : Json) : Option (List Char) :=
  match objGet ("type".data) j with
  | some (Json.str t) =>
    if t = ("content_block_delta".data) then
      match objGet ("delta".data) j with
      | some d =>
        match objGet ("type".data) d with
        | some (Json.str dt) =>
          if dt = ("text_delta".data) then
            match objGet ("text".data) d with
            | some (Json.str s) => some s
            | _ => none
          else none
        | _ => none
      | none => none
    else none
  | _ => none

/-- Fragment extraction of the Gemini stream loop:
`json.candidates?.[0]?.content?.parts?.[0]?.text` followed by
`if (text) yield text` (empty string is falsy). -/
def geminiExtract (j : Json) : Option (List Char) :=
  match (((((objGet ("candidates".data) j).bind (arrGet 0)).bind
      (objGet ("content".data))).bind (objGet ("parts".data))).bind
      (arrGet 0)).bind (objGet ("text".data)) with
  | some (Json.str s) => if s = [] then none else some s
  | _ => none

/-- State of a line-delimited stream decoder: the text after the last newline
seen so far (`buffer`), and whether the generator has returned (the `[DONE]`
sentinel exits the whole generator, so later chunks are never read). -/
structure LineDecState where
  buffer : List Char
  done : Bool
deriving DecidableEq

/-- Outcome of one iteration of a stream loop body on one complete line:
`none` is the `return` on the `[DONE]` sentinel; `some none` is `continue`
(blank, metadata, non-data, parse failure, or falsy delta); `some (some f)`
yields the fragment `f`. -/
def LineOut : Type := Option (Option (List Char))

/-- The body of the OpenAI stream loop for one complete line: blank lines
are skipped, `data: [DONE]` (after trim) returns from the generator,
`data: ` lines are JSON-parsed (parse errors are logged and skipped),
anything else falls through. -/
def classifyOpenAILine (line : List Char) : LineOut :=
  if jsTrim line = [] then some none
  else if jsTrim line = ("data: [DONE]".data) then none
  else if startsWithL ("data: ".data) line then
    match jsonParse (line.drop 6) with
    | some j => some (openAIExtract j)
    | none => some none
  else some none

/-- The body of the Anthropic stream loop for one complete line: blank lines
and `event: ` lines are skipped; on a `data: ` line the payload `[DONE]`
(exact match) returns from the generator, otherwise it is JSON-parsed
(parse errors logged and skipped). -/
def classifyAnthropicLine (line : List Char) : LineOut :=
  if jsTrim line = [] then some none
  else if startsWithL ("event: ".data) line then some none
  else if startsWithL ("data: ".data) line then
    if line.drop 6 = ("[DONE]".data) then none
    else
      match jsonParse (line.drop 6) with
      | some j => some (anthropicExtract j)
      | none => some none
  else some none

/-- Run the `for (const line of lines)` loop over the complete lines of one
read: collect yielded fragments in order and stop at the first sentinel,
reporting whether it was hit. -/
def runLines (classify : List Char → LineOut) :
    List (List Char) → List (List Char) × Bool
  | [] => ([], false)
  | line :: rest =>
    match classify line with
    | none => ([], true)
    | some o =>
      let r := runLines classify rest
      (o.toList ++ r.1, r.2)

/-- The complete-line processing of the OpenAI stream loop. -/
def openAIProcessLines : List (List Char) → List (List Char) × Bool :=
  runLines classifyOpenAILine

/-- The complete-line processing of the Anthropic stream loop. -/
def anthropicProcessLines : List (List Char) → List (List Char) × Bool :=
  runLines classifyAnthropicLine

/-- One `reader.read()` iteration of a line-delimited decoder, parameterised
by the per-line classifier: append the chunk to the buffer, split on the
line terminator, keep the final (possibly incomplete) piece buffered
(`buffer = lines.pop() || ''`), and classify the complete lines.  If the
generator already returned, the chunk is never read. -/
def lineFeed (proc : List (List Char) → List (List Char) × Bool)
    (st : LineDecState) (chunk : List Char) : List (List Char) × LineDecState :=
  if st.done then ([], st)
  else
    let ls := splitNl (st.buffer ++ chunk)
    let r := proc ls.dropLast
    (r.1, ⟨ls.getLastD [], r.2⟩)

/-- Feed a sequence of chunks to a line-delimited decoder from a given state;
at end-of-stream the loop breaks and the remaining buffer is discarded. -/
def lineRunFrom (proc : List (List Char) → List (List Char) × Bool) :
    LineDecState → List (List Char) → List (List Char)
  | _, [] => []
  | st, chunk :: more =>
    let r := lineFeed proc st chunk
    r.1 ++ lineRunFrom proc r.2 more

/-- Complete run of the OpenAI decoder over a chunked response body. -/
def openAIRunChunks (chunks : List (List Char)) : List (List Char) :=
  lineRunFrom openAIProcessLines ⟨[], false⟩ chunks

/-- Complete run of the Anthropic decoder over a chunked response body. -/
def anthropicRunChunks (chunks : List (List Char)) : List (List Char) :=
  lineRunFrom anthropicProcessLines ⟨[], false⟩ chunks

/-- State of the Gemini brace-counting scan at one character position:
`prev` is `buffer[i - 1]` (none at the start of the buffer), `inStr` the
in-string flag, `count` the brace balance, `acc` the scanned characters in
reverse. -/
structure ScanSt where
  prev : Option Char
  inStr : Bool
  count : Int
  acc : List Char

/-- One character step of the Gemini scan: toggle the in-string flag on a
quote not preceded by a backslash (`buffer[i - 1] !== '\\'`), then count
unquoted braces using the updated flag, exactly as the source loop does. -/
def scanStep (s : ScanSt) (c : Char) : ScanSt :=
  let inStr2 := if c = '"' ∧ s.prev ≠ some '\\' then !s.inStr else s.inStr
  let count2 :=
    if !inStr2 && c = '{' then s.count + 1
    else if !inStr2 && c = '}' then s.count - 1
    else s.count
  ⟨some c, inStr2, count2, c :: s.acc⟩

/-- Run the Gemini scan until the balance returns to zero at a closing brace
outside a string (the source's `end`), returning the scanned span and the
rest, or `none` if the buffer is exhausted first (`end === -1`). -/
def braceScanAux : List Char → ScanSt → Option (List Char × List Char)
  | [], _ => none
  | c :: rest, s =>
    let s2 := scanStep s c
    if !s2.inStr && c = '}' && s2.count = 0 then some (s2.acc.reverse, rest)
    else braceScanAux rest s2

/-- Scan for the balanced object starting at the head of `t` (the source
calls this only at a position found by `indexOf('\x7b')`, whose character
can never toggle the string flag, so seeding `prev` with `none` is
faithful). -/
def braceScan (t : List Char) : Option (List Char × List Char) :=
  braceScanAux t ⟨none, false, 0, []⟩

theorem braceScanAux_rest_lt (cs : List Char) :
    ∀ s o r, braceScanAux cs s = some (o, r) → r.length < cs.length := by
  induction cs with
  | nil => intro s o r h; simp [braceScanAux] at h
  | cons c rest ih =>
    intro s o r h
    simp only [braceScanAux] at h
    by_cases hc : (!(scanStep s c).inStr && c = '}' && (scanStep s c).count = 0) = true
    · rw [if_pos hc] at h
      cases h
      simp
    · rw [if_neg hc] at h
      have := ih _ _ _ h
      simp only [List.length_cons]
      omega

theorem braceScan_rest_lt {t o r : List Char} (h : braceScan t = some (o, r)) :
    r.length < t.length :=
  braceScanAux_rest_lt t _ o r h

theorem dropWhile_len_le {α : Type} (p : α → Bool) (l : List α) :
    (l.dropWhile p).length ≤ l.length := by
  induction l with
  | nil => simp [List.dropWhile]
  | cons c rest ih =>
    simp only [List.dropWhile]
    cases h : p c
    · simp
    · simp only []
      simp only [List.length_cons]
      omega

/-- The per-`feed` cursor loop of the Gemini decoder: find the next `\x7b`
(`indexOf`), scan for its matching brace; on success parse the span as JSON
(parse errors logged and skipped), maybe yield the extracted text, and
continue past it; when no `\x7b` is found or the object is incomplete, stop
and retain everything from the cursor on (`buffer.substring(cursor)`).
Both break cases keep the buffer unchanged from the cursor position, so they
collapse into the `none` branch here. -/
def geminiGo (buf : List Char) : List (List Char) × List Char :=
  match h2 : braceScan (buf.dropWhile (fun c => c != '{')) with
  | none => ([], buf)
  | some (objStr, rest) =>
    let frag :=
      match jsonParse objStr with
      | some j => geminiExtract j
      | none => none
    let r := geminiGo rest
    (frag.toList ++ r.1, r.2)
termination_by buf.length
decreasing_by
  have h3 := braceScan_rest_lt h2
  have h4 : (buf.dropWhile (fun c => c != '{')).length ≤ buf.length :=
    dropWhile_len_le _ _
  omega

/-- Feed a sequence of chunks to the Gemini decoder from a given buffer;
at end-of-stream the loop breaks and the remaining buffer is discarded. -/
def geminiRunFrom : List Char → List (List Char) → List (List Char)
  | _, [] => []
  | buf, chunk :: more =>
    let r := geminiGo (buf ++ chunk)
    r.1 ++ geminiRunFrom r.2 more

/-- Complete run of the Gemini decoder over a chunked response body. -/
def geminiRunChunks (chunks : List (List Char)) : List (List Char) :=
  geminiRunFrom [] chunks

/-- The default template `SYSTEM_PROMPT` of src/services/llm.ts, verbatim
(a backtick template literal, so it begins and ends with a newline). -/
def SYSTEM_PROMPT : List Char :=
  ("\nYou are a professional content distiller. Your goal is to summarize the following text into 3 sections:\n1. One-sentence TL;DR.\n2. Key Takeaways (bullet points).\n3. Action Items or Conclusion.\n\nIMPORTANT: The article may be in any language, but you MUST provide the summary in \x7b\x7bLANGUAGE\x7d\x7d.\n").data

/-- The literal placeholder token. -/
def LANGUAGE_PH : List Char := ("\x7b\x7bLANGUAGE\x7d\x7d").data

/-- GetSubstitution of JavaScript `String.replace`: expand the special
dollar patterns of the replacement text — two dollars give a literal
dollar, dollar-ampersand the matched text, dollar followed by the grave
accent (code point 96) the portion before the match, dollar-apostrophe the
portion after it; anything else (including digit references, which have no
capture groups to refer to under a string pattern) stays literal. -/
def getSubstitution : List Char → List Char → List Char → List Char → List Char
  | [], _, _, _ => []
  | c :: rest, matched, before, after =>
    if c = '$' then
      match rest with
      | [] => ['$']
      | d :: rest2 =>
        if d = '$' then '$' :: getSubstitution rest2 matched before after
        else if d = '&' then matched ++ getSubstitution rest2 matched before after
        else if d = Char.ofNat 96 then before ++ getSubstitution rest2 matched before after
        else if d = '\'' then after ++ getSubstitution rest2 matched before after
        else '$' :: d :: getSubstitution rest2 matched before after
    else c :: getSubstitution rest matched before after

/-- Scan for the first occurrence of `pat`; `seen` is the reversed portion
already passed over (the text before the eventual match, needed both for
the result and for the dollar patterns of the replacement). -/
def replFirstAux (pat rep : List Char) : List Char → List Char → List Char
  | seen, [] =>
    if startsWithL pat [] then
      seen.reverse ++ getSubstitution rep pat seen.reverse []
    else seen.reverse
  | seen, c :: rest =>
    if startsWithL pat (c :: rest) then
      seen.reverse
        ++ getSubstitution rep pat seen.reverse ((c :: rest).drop pat.length)
        ++ (c :: rest).drop pat.length
    else replFirstAux pat rep (c :: seen) rest

/-- JavaScript `s.replace(pat, rep)` with a string pattern: substitutes the
expanded replacement for only the first occurrence of `pat` (matching at
position zero when `pat` is empty), and leaves `s` unchanged when there is
no occurrence. -/
def replaceFirst (pat rep s : List Char) : List Char :=
  replFirstAux pat rep [] s

/-- `constructPrompt` of src/services/llm.ts: choose the custom prompt when
it is set and non-empty (`options.customPrompt || SYSTEM_PROMPT`; for a
string the only falsy value is the empty string), substitute the language
for the placeholder with `String.replace`, and append the separator and the
content. -/
def constructPrompt (customPrompt : Option (List Char))
    (language content : List Char) : List Char :=
  let promptTemplate :=
    match customPrompt with
    | some cp => if cp = [] then SYSTEM_PROMPT else cp
    | none => SYSTEM_PROMPT
  let systemInstruction := replaceFirst LANGUAGE_PH language promptTemplate
  systemInstruction ++ ("\n\n---\n\n").data ++ content

/-- `OpenAI.validateKey`: fast-fail on the `sk-` format check, then the
result of the authenticated GET on /v1/models; `fetchOk` is `res.ok` of
that call (a thrown fetch error behaves as `false`, as in the catch
branch). -/
def openAIValidateKey (key : List Char) (fetchOk : Bool) : Bool :=
  if !(startsWithL ("sk-".data) key) then false else fetchOk

/-- `Anthropic.validateKey`: only the format check `key.startsWith('sk-ant-')`;
the function performs no network call, so its result depends on no HTTP
outcome. -/
def anthropicValidateKey (key : List Char) : Bool :=
  startsWithL ("sk-ant-".data) key

/-- `Gemini.validateKey`: only the length check `key.length > 10`; the
function performs no network call, so its result depends on no HTTP
outcome. -/
def geminiValidateKey (key : List Char) : Bool :=
  10 < key.length

/-- Modelled from the spec for comparison (claim C2): a network provider's
`validateKey` verdict is claimed to be the format fast-fail gate conjoined
with the HTTP-success status of the authenticated list call. -/
def validateKeySpecClaim (formatOk httpOk : Bool) : Bool :=
  formatOk && httpOk

/-- Model identifier actually sent by `OpenAI.summarize`:
`options.model || 'gpt-4o-mini'` (the only falsy string is the empty one). -/
def openAISentModel (model : List Char) : List Char :=
  if model = [] then ("gpt-4o-mini").data else model

/-- Model identifier actually sent by `Anthropic.summarize`:
`options.model || 'claude-3-5-sonnet-20240620'`. -/
def anthropicSentModel (model : List Char) : List Char :=
  if model = [] then ("claude-3-5-sonnet-20240620").data else model

/-- Model identifier actually sent by `Gemini.summarize`:
`options.model || 'gemini-1.5-pro'`. -/
def geminiSentModel (model : List Char) : List Char :=
  if model = [] then ("gemini-1.5-pro").data else model

/-- Observable data of the fetch response consumed by a summarize call:
the HTTP ok flag and status, the body text read when reporting an error,
and the streamed chunks (`none` models a missing `res.body`). -/
structure HttpResponse where
  ok : Bool
  status : Nat
  bodyText : List Char
  body : Option (List (List Char))

/-- `OpenAI.summarize` after the request is sent: a non-ok response throws
`OpenAI API Error: status body` before anything is yielded, a missing body
throws `No response body`, otherwise the chunks run through the stream
loop. -/
def openAISummarize (res : HttpResponse) : Except (List Char) (List (List Char)) :=
  if !res.ok then
    Except.error (("OpenAI API Error: ").data ++ (toString res.status).data
      ++ (" ").data ++ res.bodyText)
  else
    match res.body with
    | none => Except.error ("No response body").data
    | some chunks => Except.ok (openAIRunChunks chunks)

/-- `Anthropic.summarize` after the request is sent (same shape, Anthropic
error prefix and decoder). -/
def anthropicSummarize (res : HttpResponse) : Except (List Char) (List (List Char)) :=
  if !res.ok then
    Except.error (("Anthropic API Error: ").data ++ (toString res.status).data
      ++ (" ").data ++ res.bodyText)
  else
    match res.body with
    | none => Except.error ("No response body").data
    | some chunks => Except.ok (anthropicRunChunks chunks)

/-- `Gemini.summarize` after the request is sent (same shape, Gemini error
prefix and decoder). -/
def geminiSummarize (res : HttpResponse) : Except (List Char) (List (List Char)) :=
  if !res.ok then
    Except.error (("Gemini API Error: ").data ++ (toString res.status).data
      ++ (" ").data ++ res.bodyText)
  else
    match res.body with
    | none => Except.error ("No response body").data
    | some chunks => Except.ok (geminiRunChunks chunks)

/-- The `preferences` table of `pickBestModel` in the popup component. -/
def preferencesFor (provider : List Char) : List (List Char) :=
  if provider = ("openai").data then
    [("gpt-4o-mini").data, ("gpt-3.5-turbo").data]
  else if provider = ("anthropic").data then
    [("claude-3-haiku-20240307").data, ("claude-3-5-haiku-20241022").data]
  else if provider = ("gemini").data then
    [("gemini-1.5-flash").data, ("gemini-1.5-flash-latest").data, ("gemini-1.5-flash-001").data]
  else []

/-- The `goodKeywords` list of `pickBestModel`. -/
def goodKeywords : List (List Char) :=
  [("flash").data, ("mini").data, ("haiku").data, ("turbo").data]

/-- `pickBestModel` of the popup component: empty input gives the empty
identifier; the on-device provider always gives `gemini-nano`; otherwise the
first preferred model contained in `models`; otherwise the first model (in
`models` order) containing one of the low-cost keywords; otherwise the first
model. -/
def pickBestModel (models : List (List Char)) (provider : List Char) : List Char :=
  if models = [] then []
  else if provider = ("chrome").data then ("gemini-nano").data
  else
    match (preferencesFor provider).find? (fun p => models.contains p) with
    | some p => p
    | none =>
      match models.filter (fun m => goodKeywords.any (fun k => containsSub k m)) with
      | c :: _ => c
      | [] => models.headD []

/-- Scheduling gate of the openai debounce effect:
`openaiKey && openaiKey.startsWith('sk-')`. -/
def openaiKeyGate (key : List Char) : Bool :=
  !key.isEmpty && startsWithL ("sk-".data) key

/-- Scheduling gate of the anthropic debounce effect. -/
def anthropicKeyGate (key : List Char) : Bool :=
  !key.isEmpty && startsWithL ("sk-ant-".data) key

/-- Scheduling gate of the gemini debounce effect
(`geminiKey && geminiKey.length > 10`). -/
def geminiKeyGate (key : List Char) : Bool :=
  !key.isEmpty && (10 < key.length)

/-- State of one provider's debounce effect: the single pending timer slot
(the absolute time at which `fetchModels` would run) and the refresh calls
that have already fired, in order. -/
structure DebounceSt where
  pending : Option Nat
  fired : List Nat

/-- One credential edit at time `ev.1` with new key `ev.2`, embedding the
effect body for one provider: a pending timer that came due at or before the
edit has already run (an executed callback cannot be cancelled); otherwise
`clearTimeout` cancels it.  Then `setTimeout(..., delay)` schedules a new
refresh iff the key passes the gate. -/
def debounceStep (gate : List Char → Bool) (delay : Nat)
    (st : DebounceSt) (ev : Nat × List Char) : DebounceSt :=
  let fired2 :=
    match st.pending with
    | some due => if due ≤ ev.1 then st.fired ++ [due] else st.fired
    | none => st.fired
  let pending2 := if gate ev.2 then some (ev.1 + delay) else none
  ⟨pending2, fired2⟩

/-- The refresh calls produced by a time-ordered burst of credential edits
once the input goes quiet: fold the edits through the effect, then let any
still-pending timer fire. -/
def debounceRun (gate : List Char → Bool) (delay : Nat)
    (events : List (Nat × List Char)) : List Nat :=
  let st := events.foldl (debounceStep gate delay) ⟨none, []⟩
  st.fired ++ (match st.pending with | some due => [due] | none => [])

theorem splitNl_ne_nil (s : List Char) : splitNl s ≠ [] := by
  induction s with
  | nil => simp [splitNl]
  | cons c rest ih =>
    simp only [splitNl]
    split
    · simp
    · split
      · simp
      · simp

/-- No newline occurs in `s`. -/
def noNl (s : List Char) : Bool := s.all (fun c => c != '\n')

theorem splitNl_noNl {s : List Char} (h : noNl s = true) : splitNl s = [s] := by
  induction s with
  | nil => simp [splitNl]
  | cons c rest ih =>
    simp only [noNl, List.all_cons, Bool.and_eq_true] at h
    obtain ⟨h1, h2⟩ := h
    have hc : c ≠ '\n' := by simpa using h1
    simp only [splitNl, if_neg hc]
    rw [ih h2]

theorem splitNl_newline {cur : List Char} (rest : List Char) (h : noNl cur = true) :
    splitNl (cur ++ '\n' :: rest) = cur :: splitNl rest := by
  induction cur with
  | nil => simp [splitNl]
  | cons d cur2 ih =>
    simp only [noNl, List.all_cons, Bool.and_eq_true] at h
    obtain ⟨h1, h2⟩ := h
    have hd : d ≠ '\n' := by simpa using h1
    simp only [List.cons_append, splitNl, if_neg hd, List.append_eq]
    rw [ih h2]

/-- One character of the line-splitting loop, viewed as a left fold: the
state is the text of the current (incomplete) line plus the complete lines
so far. -/
def charStep (st : List Char × List (List Char)) (c : Char) :
    List Char × List (List Char) :=
  if c = '\n' then ([], st.2 ++ [st.1]) else (st.1 ++ [c], st.2)

theorem noNl_append_char {cur : List Char} {c : Char} (h : noNl cur = true)
    (hc : c ≠ '\n') : noNl (cur ++ [c]) = true := by
  simp only [noNl, List.all_append, List.all_cons, List.all_nil,
    Bool.and_eq_true] at *
  exact ⟨h, by simpa using hc, trivial⟩

theorem foldl_charStep (s : List Char) :
    ∀ cur comp, noNl cur = true →
      List.foldl charStep (cur, comp) s
        = ((splitNl (cur ++ s)).getLastD [],
           comp ++ (splitNl (cur ++ s)).dropLast) := by
  induction s with
  | nil =>
    intro cur comp h
    simp [splitNl_noNl h]
  | cons c rest ih =>
    intro cur comp h
    by_cases hc : c = '\n'
    · subst hc
      rw [List.foldl_cons]
      have hstep : charStep (cur, comp) '\n' = ([], comp ++ [cur]) := by
        simp [charStep]
      rw [hstep, ih [] (comp ++ [cur]) (by simp [noNl])]
      rw [splitNl_newline rest h]
      cases hL : splitNl rest with
      | nil => exact absurd hL (splitNl_ne_nil rest)
      | cons piece more =>
        simp only [List.nil_append]
        rw [hL]
        simp [List.getLastD_cons, List.dropLast_cons₂]
    · rw [List.foldl_cons]
      have hstep : charStep (cur, comp) c = (cur ++ [c], comp) := by
        simp [charStep, hc]
      rw [hstep, ih (cur ++ [c]) comp (noNl_append_char h hc)]
      simp only [List.append_assoc, List.singleton_append]

theorem noNl_splitNl_lastD (s : List Char) :
    noNl ((splitNl s).getLastD []) = true := by
  induction s with
  | nil => simp [splitNl, noNl]
  | cons c rest ih =>
    simp only [splitNl]
    by_cases hc : c = '\n'
    · rw [if_pos hc]
      cases hL : splitNl rest with
      | nil => exact absurd hL (splitNl_ne_nil rest)
      | cons piece more =>
        rw [hL] at ih
        simpa [List.getLastD_cons] using ih
    · rw [if_neg hc]
      cases hL : splitNl rest with
      | nil => exact absurd hL (splitNl_ne_nil rest)
      | cons piece more =>
        rw [hL] at ih
        cases more with
        | nil =>
          simp only [List.getLastD_cons, List.getLastD_nil] at ih ⊢
          simp only [noNl, List.all_cons, Bool.and_eq_true]
          exact ⟨by simpa using hc, by simpa [noNl] using ih⟩
        | cons p2 more2 =>
          simpa [List.getLastD_cons] using ih

theorem split_eqs (buf a b : List Char) (h : noNl buf = true) :
    (splitNl (buf ++ (a ++ b))).dropLast
      = (splitNl (buf ++ a)).dropLast
        ++ (splitNl ((splitNl (buf ++ a)).getLastD [] ++ b)).dropLast
    ∧ (splitNl (buf ++ (a ++ b))).getLastD []
      = (splitNl ((splitNl (buf ++ a)).getLastD [] ++ b)).getLastD [] := by
  have h4 : List.foldl charStep (buf, ([] : List (List Char))) (a ++ b)
      = List.foldl charStep (List.foldl charStep (buf, []) a) b :=
    List.foldl_append ..
  rw [foldl_charStep (a ++ b) buf [] h] at h4
  rw [foldl_charStep a buf [] h] at h4
  rw [foldl_charStep b _ _ (noNl_splitNl_lastD (buf ++ a))] at h4
  simp only [List.nil_append, Prod.mk.injEq] at h4
  exact ⟨h4.2, h4.1⟩

theorem runLines_append (cl : List Char → LineOut) (ls1 ls2 : List (List Char)) :
    runLines cl (ls1 ++ ls2)
      = ((runLines cl ls1).1
           ++ (if (runLines cl ls1).2 then [] else (runLines cl ls2).1),
         (runLines cl ls1).2 || (runLines cl ls2).2) := by
  induction ls1 with
  | nil => simp [runLines]
  | cons l ls ih =>
    cases hcl : cl l with
    | none => simp [runLines, hcl]
    | some o =>
      simp only [List.cons_append, runLines, hcl]
      cases h1 : (runLines cl ls).2 <;> simp [ih, h1]

theorem lineFeed_eq (proc : List (List Char) → List (List Char) × Bool)
    (st : LineDecState) (chunk : List Char) (hd : st.done = false) :
    lineFeed proc st chunk
      = ((proc (splitNl (st.buffer ++ chunk)).dropLast).1,
         ⟨(splitNl (st.buffer ++ chunk)).getLastD [],
          (proc (splitNl (st.buffer ++ chunk)).dropLast).2⟩) := by
  simp [lineFeed, hd]

theorem lineFeed_buffer_noNl (proc : List (List Char) → List (List Char) × Bool)
    (st : LineDecState) (chunk : List Char) (h : noNl st.buffer = true) :
    noNl ((lineFeed proc st chunk).2).buffer = true := by
  by_cases hd : st.done
  · simp [lineFeed, hd, h]
  · rw [lineFeed_eq proc st chunk (by simpa using hd)]
    exact noNl_splitNl_lastD _

theorem lineFeed_append_frags (cl : List Char → LineOut)
    (st : LineDecState) (a b : List Char) (h : noNl st.buffer = true) :
    (lineFeed (runLines cl) st (a ++ b)).1
      = (lineFeed (runLines cl) st a).1
        ++ (lineFeed (runLines cl) (lineFeed (runLines cl) st a).2 b).1 := by
  by_cases hd : st.done
  · simp [lineFeed, hd]
  · have hd2 : st.done = false := by simpa using hd
    rw [lineFeed_eq _ st (a ++ b) hd2, lineFeed_eq _ st a hd2]
    obtain ⟨e1, _⟩ := split_eqs st.buffer a b h
    rw [e1, runLines_append]
    by_cases hdone1 : (runLines cl (splitNl (st.buffer ++ a)).dropLast).2
    · simp [lineFeed, hdone1]
    · simp only [hdone1, Bool.false_eq_true, if_false]
      rw [lineFeed_eq _ _ b (by simpa using hdone1)]

theorem lineFeed_append_done (cl : List Char → LineOut)
    (st : LineDecState) (a b : List Char) (h : noNl st.buffer = true) :
    ((lineFeed (runLines cl) st (a ++ b)).2).done
      = ((lineFeed (runLines cl) (lineFeed (runLines cl) st a).2 b).2).done := by
  by_cases hd : st.done
  · simp [lineFeed, hd]
  · have hd2 : st.done = false := by simpa using hd
    rw [lineFeed_eq _ st (a ++ b) hd2, lineFeed_eq _ st a hd2]
    obtain ⟨e1, _⟩ := split_eqs st.buffer a b h
    rw [e1, runLines_append]
    by_cases hdone1 : (runLines cl (splitNl (st.buffer ++ a)).dropLast).2
    · simp [lineFeed, hdone1]
    · simp only [hdone1, Bool.false_or]
      rw [lineFeed_eq _ _ b (by simpa using hdone1)]

theorem lineRunFrom_run (cl : List Char → LineOut) (chunks : List (List Char)) :
    ∀ st : LineDecState, noNl st.buffer = true →
      lineRunFrom (runLines cl) st chunks
        = (lineFeed (runLines cl) st chunks.flatten).1 := by
  induction chunks with
  | nil =>
    intro st h
    simp only [List.flatten_nil]
    by_cases hd : st.done
    · simp [lineRunFrom, lineFeed, hd]
    · rw [lineRunFrom, lineFeed_eq _ st [] (by simpa using hd)]
      rw [List.append_nil, splitNl_noNl h]
      simp [runLines]
  | cons c cs ih =>
    intro st h
    simp only [lineRunFrom, List.flatten_cons]
    rw [ih (lineFeed (runLines cl) st c).2 (lineFeed_buffer_noNl _ st c h)]
    exact (lineFeed_append_frags cl st c cs.flatten h).symm

theorem braceScanAux_append (cs : List Char) : ∀ (ys : List Char) (s : ScanSt),
    braceScanAux (cs ++ ys) s
      = (match braceScanAux cs s with
         | some (o, r) => some (o, r ++ ys)
         | none => braceScanAux ys (cs.foldl scanStep s)) := by
  induction cs with
  | nil => intro ys s; simp [braceScanAux]
  | cons c rest ih =>
    intro ys s
    simp only [List.cons_append, braceScanAux]
    cases hcond : (!(scanStep s c).inStr && c = '}' && (scanStep s c).count = 0) with
    | true => simp [hcond]
    | false =>
      simp only [hcond, Bool.false_eq_true, if_false, List.append_eq]
      rw [ih ys (scanStep s c)]
      simp [List.foldl_cons]

theorem braceScan_append_some {t o r : List Char} (y : List Char)
    (h : braceScan t = some (o, r)) :
    braceScan (t ++ y) = some (o, r ++ y) := by
  unfold braceScan at h ⊢
  rw [braceScanAux_append t y _, h]

theorem dropWhile_append_of_ne_nil {p : Char → Bool} {x : List Char} (y : List Char)
    (h : x.dropWhile p ≠ []) : (x ++ y).dropWhile p = x.dropWhile p ++ y := by
  induction x with
  | nil => simp at h
  | cons c rest ih =>
    rw [List.cons_append, List.dropWhile_cons, List.dropWhile_cons]
    rw [List.dropWhile_cons] at h
    by_cases hpc : p c = true
    · simp only [hpc, if_true] at h ⊢
      exact ih h
    · have hf : p c = false := by simpa using hpc
      simp [hf]

theorem dropWhile_append_of_nil {p : Char → Bool} {x : List Char} (y : List Char)
    (h : x.dropWhile p = []) : (x ++ y).dropWhile p = y.dropWhile p := by
  induction x with
  | nil => simp
  | cons c rest ih =>
    rw [List.cons_append, List.dropWhile_cons]
    rw [List.dropWhile_cons] at h
    by_cases hpc : p c = true
    · simp only [hpc, if_true] at h ⊢
      exact ih h
    · have hf : p c = false := by simpa using hpc
      simp [hf] at h

theorem geminiGo_of_none {buf : List Char}
    (h : braceScan (buf.dropWhile (fun c => c != '{')) = none) :
    geminiGo buf = ([], buf) := by
  rw [geminiGo]
  split
  · rfl
  next _ _ heq =>
    rw [h] at heq
    simp at heq

theorem geminiGo_of_some {buf o r : List Char}
    (h : braceScan (buf.dropWhile (fun c => c != '{')) = some (o, r)) :
    geminiGo buf
      = ((match jsonParse o with
          | some j => geminiExtract j
          | none => none).toList ++ (geminiGo r).1,
         (geminiGo r).2) := by
  rw [geminiGo]
  split
  next heq =>
    rw [h] at heq
    simp at heq
  next objStr rest heq =>
    rw [h] at heq
    simp only [Option.some.injEq, Prod.mk.injEq] at heq
    obtain ⟨h1, h2⟩ := heq
    subst h1
    subst h2
    rfl

theorem geminiGo_append_bound : ∀ (n : Nat) (x : List Char), x.length ≤ n → ∀ y,
    geminiGo (x ++ y)
      = ((geminiGo x).1 ++ (geminiGo ((geminiGo x).2 ++ y)).1,
         (geminiGo ((geminiGo x).2 ++ y)).2) := by
  intro n
  induction n with
  | zero =>
    intro x hx y
    have hx0 : x = [] := List.length_eq_zero.mp (Nat.le_zero.mp hx)
    subst hx0
    have h0 : geminiGo [] = ([], []) := geminiGo_of_none rfl
    simp [h0]
  | succ n ih =>
    intro x hx y
    cases hscan : braceScan (x.dropWhile (fun c => c != '{')) with
    | none =>
      have h0 := geminiGo_of_none hscan
      simp [h0]
    | some pr =>
      obtain ⟨o, r⟩ := pr
      have hx1 := geminiGo_of_some hscan
      have htne : x.dropWhile (fun c => c != '{') ≠ [] := by
        intro hteq
        rw [hteq] at hscan
        simp [braceScan, braceScanAux] at hscan
      have hdw : (x ++ y).dropWhile (fun c => c != '{')
          = x.dropWhile (fun c => c != '{') ++ y :=
        dropWhile_append_of_ne_nil y htne
      have hscan2 : braceScan ((x ++ y).dropWhile (fun c => c != '{'))
          = some (o, r ++ y) := by
        rw [hdw]
        exact braceScan_append_some y hscan
      have hrl : r.length ≤ n := by
        have h1 := braceScan_rest_lt hscan
        have h2 := dropWhile_len_le (fun c => c != '{') x
        omega
      rw [geminiGo_of_some hscan2, hx1, ih r hrl y]
      simp [List.append_assoc]

theorem geminiGo_append (x y : List Char) :
    geminiGo (x ++ y)
      = ((geminiGo x).1 ++ (geminiGo ((geminiGo x).2 ++ y)).1,
         (geminiGo ((geminiGo x).2 ++ y)).2) :=
  geminiGo_append_bound x.length x le_rfl y

theorem geminiGo_stuck_bound : ∀ (n : Nat) (x : List Char), x.length ≤ n →
    geminiGo ((geminiGo x).2) = ([], (geminiGo x).2) := by
  intro n
  induction n with
  | zero =>
    intro x hx
    have hx0 : x = [] := List.length_eq_zero.mp (Nat.le_zero.mp hx)
    subst hx0
    have h0 : geminiGo [] = ([], []) := geminiGo_of_none rfl
    simp [h0]
  | succ n ih =>
    intro x hx
    cases hscan : braceScan (x.dropWhile (fun c => c != '{')) with
    | none =>
      have h0 := geminiGo_of_none hscan
      simp [h0]
    | some pr =>
      obtain ⟨o, r⟩ := pr
      have hx1 := geminiGo_of_some hscan
      rw [hx1]
      have hrl : r.length ≤ n := by
        have h1 := braceScan_rest_lt hscan
        have h2 := dropWhile_len_le (fun c => c != '{') x
        omega
      simpa using ih r hrl

/-- The buffer a Gemini feed leaves behind is stuck: scanning it again
yields nothing until more data arrives. -/
theorem geminiGo_stuck (x : List Char) :
    geminiGo ((geminiGo x).2) = ([], (geminiGo x).2) :=
  geminiGo_stuck_bound x.length x le_rfl

theorem geminiRunFrom_run (chunks : List (List Char)) :
    ∀ buf, geminiGo buf = ([], buf) →
      geminiRunFrom buf chunks = (geminiGo (buf ++ chunks.flatten)).1 := by
  induction chunks with
  | nil =>
    intro buf h
    simp [geminiRunFrom, h]
  | cons c cs ih =>
    intro buf h
    simp only [geminiRunFrom, List.flatten_cons]
    rw [ih _ (geminiGo_stuck (buf ++ c))]
    rw [← List.append_assoc, geminiGo_append (buf ++ c) cs.flatten]

theorem noNl_append {x y : List Char} (hx : noNl x = true) (hy : noNl y = true) :
    noNl (x ++ y) = true := by
  simp only [noNl, List.all_append, Bool.and_eq_true]
  exact ⟨hx, hy⟩

theorem lineRunFrom_of_done (proc : List (List Char) → List (List Char) × Bool)
    (chunks : List (List Char)) :
    ∀ st : LineDecState, st.done = true → lineRunFrom proc st chunks = [] := by
  induction chunks with
  | nil => intro st _; rfl
  | cons c cs ih =>
    intro st h
    simp only [lineRunFrom]
    rw [show lineFeed proc st c = ([], st) by simp [lineFeed, h]]
    simpa using ih st h

/-- Claim C1: for each of the three decoders (OpenAI line-delimited,
Anthropic line-delimited, Gemini bare-array), feeding any partition of a
payload chunk by chunk yields exactly the same concatenated fragment
sequence as feeding the whole payload in a single chunk. -/
theorem c1_decoder_chunking_invariance :
    (∀ chunks : List (List Char),
       openAIRunChunks chunks = openAIRunChunks [chunks.flatten])
    ∧ (∀ chunks : List (List Char),
       anthropicRunChunks chunks = anthropicRunChunks [chunks.flatten])
    ∧ (∀ chunks : List (List Char),
       geminiRunChunks chunks = geminiRunChunks [chunks.flatten]) := by
  refine ⟨fun chunks => ?_, fun chunks => ?_, fun chunks => ?_⟩
  · unfold openAIRunChunks openAIProcessLines
    rw [lineRunFrom_run classifyOpenAILine chunks ⟨[], false⟩ rfl,
        lineRunFrom_run classifyOpenAILine [chunks.flatten] ⟨[], false⟩ rfl]
    simp
  · unfold anthropicRunChunks anthropicProcessLines
    rw [lineRunFrom_run classifyAnthropicLine chunks ⟨[], false⟩ rfl,
        lineRunFrom_run classifyAnthropicLine [chunks.flatten] ⟨[], false⟩ rfl]
    simp
  · unfold geminiRunChunks
    rw [geminiRunFrom_run chunks [] (geminiGo_of_none rfl),
        geminiRunFrom_run [chunks.flatten] [] (geminiGo_of_none rfl)]
    simp

/-- The event-stream payload of claim C4:
`data: \x7b"choices":[\x7b"delta":\x7b"content":"Hello"\x7d\x7d]\x7d`,
a blank line, `data: [DONE]`, a blank line. -/
def c4Payload : List Char :=
  ("data: \x7b\"choices\":[\x7b\"delta\":\x7b\"content\":\"Hello\"\x7d\x7d]\x7d\n\ndata: [DONE]\n\n").data

/-- Claim C4: the payload yields exactly the fragment `Hello`, and once the
`[DONE]` sentinel line is seen the generator returns at once: any further
bytes in the same chunk (`junk`) and any further chunks (`more`) produce no
fragments. -/
theorem c4_done_sentinel_terminates :
    ∀ (junk : List Char) (more : List (List Char)),
      openAIRunChunks ((c4Payload ++ junk) :: more) = [("Hello").data] := by
  intro junk more
  unfold openAIRunChunks openAIProcessLines
  simp only [lineRunFrom]
  have h1 : lineFeed (runLines classifyOpenAILine) ⟨[], false⟩ c4Payload
      = ([("Hello").data], ⟨[], true⟩) := by decide
  have hfr := lineFeed_append_frags classifyOpenAILine ⟨[], false⟩ c4Payload junk rfl
  have hdn := lineFeed_append_done classifyOpenAILine ⟨[], false⟩ c4Payload junk rfl
  rw [h1] at hfr hdn
  have hj : lineFeed (runLines classifyOpenAILine) ⟨[], true⟩ junk
      = ([], ⟨[], true⟩) := by simp [lineFeed]
  rw [hj] at hfr hdn
  simp only [List.append_nil] at hfr
  rw [hfr, lineRunFrom_of_done (runLines classifyOpenAILine) more _ hdn]
  simp

/-- A complete `data:` line that is not newline-terminated, from claim C5. -/
def c5Line : List Char :=
  ("data: \x7b\"choices\":[\x7b\"delta\":\x7b\"content\":\"Hi\"\x7d\x7d]\x7d").data

/-- Claim C5 counterexample: at end-of-stream a buffered complete `data:`
unit is NOT flushed.  The line alone (no trailing newline) decodes to no
fragment at all, while the same line terminated by a newline decodes to the
fragment `Hi` — so the residual complete unit was discarded, and the output
differs from the decoding of the full payload. -/
theorem c5_counterexample :
    openAIRunChunks [c5Line] = []
    ∧ openAIRunChunks [c5Line ++ [('\n' : Char)]] = [("Hi").data] := by
  constructor
  · decide
  · decide

theorem lineRun_tail_ignored (cl : List Char → LineOut) (p r : List Char)
    (h : noNl r = true) :
    lineRunFrom (runLines cl) ⟨[], false⟩ [p ++ r]
      = lineRunFrom (runLines cl) ⟨[], false⟩ [p] := by
  simp only [lineRunFrom]
  rw [lineFeed_eq _ _ _ rfl, lineFeed_eq _ _ _ rfl]
  obtain ⟨e1, _⟩ := split_eqs [] p r rfl
  simp only [List.nil_append] at e1 ⊢
  rw [e1, splitNl_noNl (noNl_append (noNl_splitNl_lastD p) h)]
  simp

/-- Claim C5 amended: when the transport signals end-of-stream, the
line-delimited decoders discard whatever sits after the last line
terminator — appending any newline-free residue `r` to a payload never
changes the output (fragments are produced only for newline-terminated
lines; the Gemini decoder needs no terminator, emitting each object as soon
as its closing brace arrives, and likewise discards an incomplete tail). -/
theorem c5_eos_discards_residual (p r : List Char) (h : noNl r = true) :
    openAIRunChunks [p ++ r] = openAIRunChunks [p]
    ∧ anthropicRunChunks [p ++ r] = anthropicRunChunks [p] :=
  ⟨lineRun_tail_ignored classifyOpenAILine p r h,
   lineRun_tail_ignored classifyAnthropicLine p r h⟩

theorem c5_eos_discards_residual_witness :
    openAIRunChunks [("data: x\n").data ++ ("tail").data]
        = openAIRunChunks [("data: x\n").data]
    ∧ anthropicRunChunks [("data: x\n").data ++ ("tail").data]
        = anthropicRunChunks [("data: x\n").data] :=
  c5_eos_discards_residual (("data: x\n").data) (("tail").data) (by decide)

/-- The bare-array payload of claim C3 whose quoted text holds braces. -/
def c3GoodPayload : List Char :=
  ("\x7b\"candidates\":[\x7b\"content\":\x7b\"parts\":[\x7b\"text\":\"a \x7b b \x7d c\"\x7d]\x7d\x7d]\x7d").data

/-- A valid JSON payload with the text `hi` whose later members hold a
string value `\` (written `"\\"` on the wire) followed by a string value
`\x7d`: the escaped backslash desynchronises the decoder's in-string flag,
so the closing brace inside the last string is counted. -/
def c3BadPayload : List Char :=
  ("\x7b\"candidates\":[\x7b\"content\":\x7b\"parts\":[\x7b\"text\":\"hi\"\x7d]\x7d\x7d],\"a\":\"\\\\\",\"b\":\"\x7d\"\x7d").data

/-- The span the scan actually extracts from `c3BadPayload`: it stops at the
brace inside the final string, one character early. -/
def c3BadTrunc : List Char :=
  ("\x7b\"candidates\":[\x7b\"content\":\x7b\"parts\":[\x7b\"text\":\"hi\"\x7d]\x7d\x7d],\"a\":\"\\\\\",\"b\":\"\x7d").data

/-- Claim C3: the claim's own example decodes correctly (braces inside the
quoted text are ignored), but the underlying property fails: in
`c3BadPayload` the closing brace inside the string value of `b` IS counted
(the `\\"` sequence flips the in-string flag out of phase), the scan closes
one character early, the truncated span fails to parse, and the decoder
emits no fragment for a valid payload whose text is `hi`. -/
theorem c3_brace_in_string :
    geminiRunChunks [c3GoodPayload] = [("a \x7b b \x7d c").data]
    ∧ geminiRunChunks [c3BadPayload] = []
    ∧ braceScan (c3BadPayload.dropWhile (fun c => c != '{'))
        = some (c3BadTrunc, ("\"\x7d").data)
    ∧ (jsonParse c3BadTrunc).isNone = true
    ∧ (jsonParse c3BadPayload).bind geminiExtract = some (("hi").data) := by
  refine ⟨?_, ?_, by decide, by decide, by decide⟩
  · have hg : braceScan (c3GoodPayload.dropWhile (fun c => c != '{'))
        = some (c3GoodPayload, []) := by decide
    unfold geminiRunChunks
    simp only [geminiRunFrom, List.nil_append]
    rw [geminiGo_of_some hg, @geminiGo_of_none [] rfl]
    decide
  · have hb : braceScan (c3BadPayload.dropWhile (fun c => c != '{'))
        = some (c3BadTrunc, ("\"\x7d").data) := by decide
    have hrest : braceScan ((("\"\x7d").data).dropWhile (fun c => c != '{'))
        = none := by decide
    unfold geminiRunChunks
    simp only [geminiRunFrom, List.nil_append]
    rw [geminiGo_of_some hb, geminiGo_of_none hrest]
    decide

/-- Claim C2 counterexample: Anthropic and Gemini validate these credentials
outright — their validateKey performs no network call at all — while the
claim's formalization (format gate conjoined with HTTP success) is false
whenever the authenticated call would fail.  The code's verdict for these
providers is therefore not determined by the HTTP-success status of any
call. -/
theorem c2_counterexample :
    anthropicValidateKey (("sk-ant-invalid-credential").data) = true
    ∧ geminiValidateKey (("not-a-real-key!").data) = true
    ∧ validateKeySpecClaim true false = false :=
  ⟨by decide, by decide, rfl⟩

/-- Claim C2 amended: only OpenAI's validateKey consults the network — its
verdict is exactly the sk- fast-fail gate conjoined with the HTTP success
of the authenticated models-list GET; Anthropic's and Gemini's validateKey
are format-only checks (sk-ant- prefix, length over ten) with no network
call. -/
theorem c2_validate_key_amended :
    (∀ (key : List Char) (fetchOk : Bool),
       openAIValidateKey key fetchOk
         = (startsWithL (("sk-").data) key && fetchOk))
    ∧ (∀ key : List Char,
       anthropicValidateKey key = startsWithL (("sk-ant-").data) key)
    ∧ (∀ key : List Char, geminiValidateKey key = decide (10 < key.length)) := by
  refine ⟨fun key fetchOk => ?_, fun _ => rfl, fun _ => rfl⟩
  unfold openAIValidateKey
  cases h : startsWithL (("sk-").data) key <;> simp [h]

/-- Claim C6 counterexample: with a custom prompt holding the placeholder
twice, `String.replace` substitutes only the first occurrence — the second
placeholder survives verbatim, so substitution does NOT happen at every
occurrence. -/
theorem c6_counterexample :
    constructPrompt
        (some (("\x7b\x7bLANGUAGE\x7d\x7d and \x7b\x7bLANGUAGE\x7d\x7d").data))
        (("fr").data) (("body").data)
      = (("fr and \x7b\x7bLANGUAGE\x7d\x7d\n\n---\n\nbody").data)
    ∧ constructPrompt
        (some (("\x7b\x7bLANGUAGE\x7d\x7d and \x7b\x7bLANGUAGE\x7d\x7d").data))
        (("fr").data) (("body").data)
      ≠ (("fr and fr\n\n---\n\nbody").data) := by
  constructor
  · decide
  · decide

theorem startsWithL_self_append (pat s : List Char) :
    startsWithL pat (pat ++ s) = true := by
  induction pat with
  | nil => rfl
  | cons p ps ih => simp [startsWithL, ih]

theorem replFirstAux_split (pat rep : List Char) (hpat : pat ≠ []) :
    ∀ (pre seen suf : List Char),
      (∀ i, i < pre.length →
        startsWithL pat ((pre ++ pat ++ suf).drop i) = false) →
      replFirstAux pat rep seen (pre ++ pat ++ suf)
        = seen.reverse ++ pre
          ++ getSubstitution rep pat (seen.reverse ++ pre) suf ++ suf := by
  intro pre
  induction pre with
  | nil =>
    intro seen suf _
    simp only [List.nil_append, List.append_nil]
    cases hp : pat with
    | nil => exact absurd hp hpat
    | cons p ps =>
      subst hp
      simp only [List.cons_append, replFirstAux]
      rw [if_pos (by
        have h := startsWithL_self_append (p :: ps) suf
        simpa [List.cons_append] using h)]
      have hdrop : (p :: (ps ++ suf)).drop (p :: ps).length = suf := by
        simp only [List.length_cons, List.drop_succ_cons]
        exact List.drop_left ps suf
      simp only [List.append_eq]
      rw [hdrop]
  | cons c pre2 ih =>
    intro seen suf hno
    have h0 : startsWithL pat (((c :: pre2) ++ pat ++ suf).drop 0) = false :=
      hno 0 (by simp)
    simp only [List.drop_zero] at h0
    rw [show (c :: pre2) ++ pat ++ suf = c :: (pre2 ++ pat ++ suf) from rfl] at h0 ⊢
    have h0r : startsWithL pat (c :: (pre2 ++ (pat ++ suf))) = false := by
      simpa [List.append_assoc] using h0
    rw [replFirstAux, if_neg (by simp [h0r])]
    rw [ih (c :: seen) suf (by
      intro i hi
      have h1 := hno (i + 1) (by simp only [List.length_cons]; omega)
      rw [show (c :: pre2) ++ pat ++ suf = c :: (pre2 ++ pat ++ suf) from rfl] at h1
      simpa using h1)]
    have hrev : (c :: seen).reverse ++ pre2 = seen.reverse ++ c :: pre2 := by
      rw [List.reverse_cons, List.append_assoc, List.singleton_append]
    rw [hrev]

theorem replaceFirst_split (pat rep : List Char) (hpat : pat ≠ [])
    (pre suf : List Char)
    (hno : ∀ i, i < pre.length →
      startsWithL pat ((pre ++ pat ++ suf).drop i) = false) :
    replaceFirst pat rep (pre ++ pat ++ suf)
      = pre ++ getSubstitution rep pat pre suf ++ suf := by
  have h := replFirstAux_split pat rep hpat pre [] suf hno
  simpa [replaceFirst] using h

theorem getSubstitution_no_dollar (matched before after : List Char) :
    ∀ rep : List Char, rep.all (fun c => c != '$') = true →
      getSubstitution rep matched before after = rep := by
  intro rep
  induction rep with
  | nil => intro _; rfl
  | cons c rest ih =>
    intro h
    simp only [List.all_cons, Bool.and_eq_true] at h
    obtain ⟨hc, hrest⟩ := h
    have hcd : c ≠ '$' := by simpa using hc
    rw [getSubstitution.eq_def]
    simp only [if_neg hcd]
    rw [ih hrest]

/-- The default template around its single placeholder occurrence: the text
before it ... -/
def SYSTEM_PROMPT_PRE : List Char :=
  ("\nYou are a professional content distiller. Your goal is to summarize the following text into 3 sections:\n1. One-sentence TL;DR.\n2. Key Takeaways (bullet points).\n3. Action Items or Conclusion.\n\nIMPORTANT: The article may be in any language, but you MUST provide the summary in ").data

/-- ... and the text after it. -/
def SYSTEM_PROMPT_SUF : List Char := (".\n").data

theorem SYSTEM_PROMPT_eq :
    SYSTEM_PROMPT = SYSTEM_PROMPT_PRE ++ LANGUAGE_PH ++ SYSTEM_PROMPT_SUF := by
  decide

theorem SYSTEM_PROMPT_no_match_in_pre :
    ∀ i, i < SYSTEM_PROMPT_PRE.length →
      startsWithL LANGUAGE_PH
        ((SYSTEM_PROMPT_PRE ++ LANGUAGE_PH ++ SYSTEM_PROMPT_SUF).drop i)
        = false := by
  decide

/-- Claim C6 amended: the prompt builder is a pure function substituting the
language for the FIRST occurrence of the placeholder in the chosen template
— the custom prompt when set and non-empty, otherwise the fixed default
template (whose single placeholder sits between `SYSTEM_PROMPT_PRE` and
`SYSTEM_PROMPT_SUF`) — then appending the separator and the content.  The
substitution is verbatim for languages free of the dollar character, which
`String.replace` treats specially in the replacement text. -/
theorem c6_first_occurrence_substitution :
    (∀ (pre suf lang content : List Char),
       lang.all (fun c => c != '$') = true →
       (∀ i, i < pre.length →
         startsWithL LANGUAGE_PH ((pre ++ LANGUAGE_PH ++ suf).drop i) = false) →
       constructPrompt (some (pre ++ LANGUAGE_PH ++ suf)) lang content
         = pre ++ lang ++ suf ++ ("\n\n---\n\n").data ++ content)
    ∧ (∀ (lang content : List Char),
       lang.all (fun c => c != '$') = true →
       constructPrompt none lang content
         = SYSTEM_PROMPT_PRE ++ lang ++ SYSTEM_PROMPT_SUF
           ++ ("\n\n---\n\n").data ++ content
       ∧ constructPrompt (some []) lang content
         = SYSTEM_PROMPT_PRE ++ lang ++ SYSTEM_PROMPT_SUF
           ++ ("\n\n---\n\n").data ++ content) := by
  constructor
  · intro pre suf lang content hlang hno
    have hne : ¬(pre ++ LANGUAGE_PH ++ suf = []) := by
      intro hcon
      rcases List.append_eq_nil.mp hcon with ⟨h1, _⟩
      rcases List.append_eq_nil.mp h1 with ⟨_, h2⟩
      simp [LANGUAGE_PH] at h2
    unfold constructPrompt
    simp only [if_neg hne]
    rw [replaceFirst_split LANGUAGE_PH lang (by decide) pre suf hno,
        getSubstitution_no_dollar LANGUAGE_PH pre suf lang hlang]
  · intro lang content hlang
    constructor
    · show replaceFirst LANGUAGE_PH lang SYSTEM_PROMPT
          ++ ("\n\n---\n\n").data ++ content = _
      rw [SYSTEM_PROMPT_eq,
          replaceFirst_split LANGUAGE_PH lang (by decide)
            SYSTEM_PROMPT_PRE SYSTEM_PROMPT_SUF SYSTEM_PROMPT_no_match_in_pre,
          getSubstitution_no_dollar LANGUAGE_PH SYSTEM_PROMPT_PRE
            SYSTEM_PROMPT_SUF lang hlang]
    · show replaceFirst LANGUAGE_PH lang SYSTEM_PROMPT
          ++ ("\n\n---\n\n").data ++ content = _
      rw [SYSTEM_PROMPT_eq,
          replaceFirst_split LANGUAGE_PH lang (by decide)
            SYSTEM_PROMPT_PRE SYSTEM_PROMPT_SUF SYSTEM_PROMPT_no_match_in_pre,
          getSubstitution_no_dollar LANGUAGE_PH SYSTEM_PROMPT_PRE
            SYSTEM_PROMPT_SUF lang hlang]

theorem c6_first_occurrence_substitution_witness :
    constructPrompt (some ((("Use ").data) ++ LANGUAGE_PH ++ ((" please").data)))
        (("fr").data) (("x").data)
      = (("Use ").data) ++ (("fr").data) ++ ((" please").data)
        ++ ("\n\n---\n\n").data ++ (("x").data)
    ∧ constructPrompt none (("fr").data) (("x").data)
      = SYSTEM_PROMPT_PRE ++ (("fr").data) ++ SYSTEM_PROMPT_SUF
        ++ ("\n\n---\n\n").data ++ (("x").data) :=
  ⟨c6_first_occurrence_substitution.1 (("Use ").data) ((" please").data)
      (("fr").data) (("x").data) (by decide) (by decide),
   (c6_first_occurrence_substitution.2 (("fr").data) (("x").data) (by decide)).1⟩

/-- Claim C7: pickBestModel follows the fixed priority — the on-device
provider always yields gemini-nano; otherwise the first entry of the
provider preference list present in the models; otherwise the first model
(in models order) containing a low-cost keyword; otherwise the first model.
The claim's concrete instance holds in both orders. -/
theorem c7_pick_best_model :
    (∀ models : List (List Char), models ≠ [] →
       pickBestModel models (("chrome").data) = ("gemini-nano").data)
    ∧ (∀ (models : List (List Char)) (provider p : List Char),
         models ≠ [] → provider ≠ ("chrome").data →
         (preferencesFor provider).find? (fun q => models.contains q) = some p →
         pickBestModel models provider = p)
    ∧ (∀ (models : List (List Char)) (provider c : List Char)
         (cs : List (List Char)),
         models ≠ [] → provider ≠ ("chrome").data →
         (preferencesFor provider).find? (fun q => models.contains q) = none →
         models.filter (fun m => goodKeywords.any (fun k => containsSub k m))
           = c :: cs →
         pickBestModel models provider = c)
    ∧ (∀ (models : List (List Char)) (provider : List Char),
         models ≠ [] → provider ≠ ("chrome").data →
         (preferencesFor provider).find? (fun q => models.contains q) = none →
         models.filter (fun m => goodKeywords.any (fun k => containsSub k m))
           = [] →
         pickBestModel models provider = models.headD [])
    ∧ pickBestModel [("gpt-4o").data, ("gpt-4o-mini").data] (("openai").data)
        = ("gpt-4o-mini").data
    ∧ pickBestModel [("gpt-4o-mini").data, ("gpt-4o").data] (("openai").data)
        = ("gpt-4o-mini").data := by
  refine ⟨?_, ?_, ?_, ?_, by decide, by decide⟩
  · intro models hm
    unfold pickBestModel
    rw [if_neg hm, if_pos rfl]
  · intro models provider p hm hp hfind
    unfold pickBestModel
    rw [if_neg hm, if_neg hp, hfind]
  · intro models provider c cs hm hp hfind hfilter
    unfold pickBestModel
    rw [if_neg hm, if_neg hp, hfind, hfilter]
  · intro models provider hm hp hfind hfilter
    unfold pickBestModel
    rw [if_neg hm, if_neg hp, hfind, hfilter]

theorem c7_pick_best_model_witness :
    pickBestModel [("alpha-turbo").data, ("beta-flash").data] (("openai").data)
      = ("alpha-turbo").data :=
  c7_pick_best_model.2.2.1 [("alpha-turbo").data, ("beta-flash").data]
    (("openai").data) (("alpha-turbo").data) [("beta-flash").data]
    (by decide) (by decide) (by decide) (by decide)

theorem debounce_burst_single (gate : List Char → Bool)
    (t1 t2 t3 t4 t5 : Nat) (k1 k2 k3 k4 k5 : List Char)
    (w12 : t2 < t1 + 1000) (w23 : t3 < t2 + 1000)
    (w34 : t4 < t3 + 1000) (w45 : t5 < t4 + 1000)
    (g1 : gate k1 = true) (g2 : gate k2 = true)
    (g3 : gate k3 = true) (g4 : gate k4 = true)
    (g5 : gate k5 = true) :
    debounceRun gate 1000
        [(t1, k1), (t2, k2), (t3, k3), (t4, k4), (t5, k5)]
      = [t5 + 1000] := by
  simp only [debounceRun, List.foldl_cons, List.foldl_nil, debounceStep,
    g1, g2, g3, g4, g5, if_true]
  rw [if_neg (by omega), if_neg (by omega), if_neg (by omega),
      if_neg (by omega)]
  simp

/-- Claim C8: for every provider's debounce effect (OpenAI, Anthropic and
Gemini each instantiate the same clear-then-reschedule effect with their
own key gate and timer slot), five credential edits, each landing inside
the settle window of the previous one and each passing that provider's
gate, collapse into exactly one refresh call, due at the last edit plus
the one-second delay — every earlier pending timer is cancelled before it
can fire. -/
theorem c8_debounce_single_refresh
    (t1 t2 t3 t4 t5 : Nat) (k1 k2 k3 k4 k5 : List Char)
    (h12 : t1 ≤ t2) (h23 : t2 ≤ t3) (h34 : t3 ≤ t4) (h45 : t4 ≤ t5)
    (w12 : t2 < t1 + 1000) (w23 : t3 < t2 + 1000)
    (w34 : t4 < t3 + 1000) (w45 : t5 < t4 + 1000) :
    (openaiKeyGate k1 = true → openaiKeyGate k2 = true →
     openaiKeyGate k3 = true → openaiKeyGate k4 = true →
     openaiKeyGate k5 = true →
       debounceRun openaiKeyGate 1000
           [(t1, k1), (t2, k2), (t3, k3), (t4, k4), (t5, k5)]
         = [t5 + 1000])
    ∧ (anthropicKeyGate k1 = true → anthropicKeyGate k2 = true →
       anthropicKeyGate k3 = true → anthropicKeyGate k4 = true →
       anthropicKeyGate k5 = true →
         debounceRun anthropicKeyGate 1000
             [(t1, k1), (t2, k2), (t3, k3), (t4, k4), (t5, k5)]
           = [t5 + 1000])
    ∧ (geminiKeyGate k1 = true → geminiKeyGate k2 = true →
       geminiKeyGate k3 = true → geminiKeyGate k4 = true →
       geminiKeyGate k5 = true →
         debounceRun geminiKeyGate 1000
             [(t1, k1), (t2, k2), (t3, k3), (t4, k4), (t5, k5)]
           = [t5 + 1000]) :=
  ⟨fun g1 g2 g3 g4 g5 =>
     debounce_burst_single openaiKeyGate t1 t2 t3 t4 t5 k1 k2 k3 k4 k5
       w12 w23 w34 w45 g1 g2 g3 g4 g5,
   fun g1 g2 g3 g4 g5 =>
     debounce_burst_single anthropicKeyGate t1 t2 t3 t4 t5 k1 k2 k3 k4 k5
       w12 w23 w34 w45 g1 g2 g3 g4 g5,
   fun g1 g2 g3 g4 g5 =>
     debounce_burst_single geminiKeyGate t1 t2 t3 t4 t5 k1 k2 k3 k4 k5
       w12 w23 w34 w45 g1 g2 g3 g4 g5⟩

theorem c8_debounce_single_refresh_witness :
    debounceRun openaiKeyGate 1000
        [(0, ("sk-ant-key01").data), (100, ("sk-ant-key02").data),
         (200, ("sk-ant-key03").data), (300, ("sk-ant-key04").data),
         (400, ("sk-ant-key05").data)]
      = [1400]
    ∧ debounceRun anthropicKeyGate 1000
        [(0, ("sk-ant-key01").data), (100, ("sk-ant-key02").data),
         (200, ("sk-ant-key03").data), (300, ("sk-ant-key04").data),
         (400, ("sk-ant-key05").data)]
      = [1400]
    ∧ debounceRun geminiKeyGate 1000
        [(0, ("sk-ant-key01").data), (100, ("sk-ant-key02").data),
         (200, ("sk-ant-key03").data), (300, ("sk-ant-key04").data),
         (400, ("sk-ant-key05").data)]
      = [1400] :=
  ⟨(c8_debounce_single_refresh 0 100 200 300 400
      (("sk-ant-key01").data) (("sk-ant-key02").data) (("sk-ant-key03").data)
      (("sk-ant-key04").data) (("sk-ant-key05").data)
      (by omega) (by omega) (by omega) (by omega)
      (by omega) (by omega) (by omega) (by omega)).1
      (by decide) (by decide) (by decide) (by decide) (by decide),
   (c8_debounce_single_refresh 0 100 200 300 400
      (("sk-ant-key01").data) (("sk-ant-key02").data) (("sk-ant-key03").data)
      (("sk-ant-key04").data) (("sk-ant-key05").data)
      (by omega) (by omega) (by omega) (by omega)
      (by omega) (by omega) (by omega) (by omega)).2.1
      (by decide) (by decide) (by decide) (by decide) (by decide),
   (c8_debounce_single_refresh 0 100 200 300 400
      (("sk-ant-key01").data) (("sk-ant-key02").data) (("sk-ant-key03").data)
      (("sk-ant-key04").data) (("sk-ant-key05").data)
      (by omega) (by omega) (by omega) (by omega)
      (by omega) (by omega) (by omega) (by omega)).2.2
      (by decide) (by decide) (by decide) (by decide) (by decide)⟩

/-- Claim C9: a non-success HTTP response, observed before any fragment is
emitted, makes every provider's summarize produce zero fragments and
exactly one error carrying the response status and body text; the result
type makes success-with-fragments and error mutually exclusive. -/
theorem c9_transport_error (res : HttpResponse) (h : res.ok = false) :
    openAISummarize res
        = Except.error ((("OpenAI API Error: ").data)
            ++ (toString res.status).data ++ ((" ").data) ++ res.bodyText)
    ∧ anthropicSummarize res
        = Except.error ((("Anthropic API Error: ").data)
            ++ (toString res.status).data ++ ((" ").data) ++ res.bodyText)
    ∧ geminiSummarize res
        = Except.error ((("Gemini API Error: ").data)
            ++ (toString res.status).data ++ ((" ").data) ++ res.bodyText)
    ∧ (∀ frags, openAISummarize res ≠ Except.ok frags)
    ∧ (∀ frags, anthropicSummarize res ≠ Except.ok frags)
    ∧ (∀ frags, geminiSummarize res ≠ Except.ok frags)
    ∧ (∀ res2 : HttpResponse, res2.ok = true → res2.body = none →
        openAISummarize res2 = Except.error (("No response body").data)
        ∧ anthropicSummarize res2 = Except.error (("No response body").data)
        ∧ geminiSummarize res2 = Except.error (("No response body").data)) := by
  refine ⟨?_, ?_, ?_, ?_, ?_, ?_, fun res2 h2 hb => ?_⟩
  all_goals simp [openAISummarize, anthropicSummarize, geminiSummarize, h]
  simp [h2, hb]

theorem c9_transport_error_witness :
    openAISummarize ⟨false, 401, ("denied").data, none⟩
      = Except.error ((("OpenAI API Error: ").data)
          ++ (toString (401 : Nat)).data ++ ((" ").data) ++ ("denied").data) :=
  (c9_transport_error ⟨false, 401, ("denied").data, none⟩ rfl).1

/-- Claim C10: with an empty (the only falsy string) model identifier, each
network provider sends its hard-coded default model, and a non-empty
identifier is sent unchanged. -/
theorem c10_default_models :
    openAISentModel [] = ("gpt-4o-mini").data
    ∧ anthropicSentModel [] = ("claude-3-5-sonnet-20240620").data
    ∧ geminiSentModel [] = ("gemini-1.5-pro").data
    ∧ (∀ m : List Char, m ≠ [] →
        openAISentModel m = m
        ∧ anthropicSentModel m = m
        ∧ geminiSentModel m = m) := by
  refine ⟨rfl, rfl, rfl, fun m hm => ?_⟩
  simp [openAISentModel, anthropicSentModel, geminiSentModel, hm]

theorem c10_default_models_witness :
    openAISentModel (("my-model").data) = ("my-model").data
    ∧ anthropicSentModel (("my-model").data) = ("my-model").data
    ∧ geminiSentModel (("my-model").data) = ("my-model").data :=
  c10_default_models.2.2.2 (("my-model").data) (by decide)
